import Mathlib

/-!
Verification development for the proofmark quality-gated escalation router.

The JavaScript sources embedded here are:
  * `src/quality-gate.mjs`  — response grammar parser, unit scorer, quality gate;
  * `src/router.mjs`        — escalation router (`evaluate`, `evaluateWithExperiment`);
  * `src/prompt-schema.mjs` — experiment definition, metrics, winner selection.

Modelling conventions:
  * JavaScript numbers are modelled as exact rationals (`ℚ`); the special
    values NaN and ±Infinity that can arise from `parseFloat` are modelled by
    the inductive `JNum`.  Score arithmetic in the gate only ever produces
    finite values, so plain `ℚ` is used there.
  * Strings are Lean `String`s; the regular expressions of the source are
    embedded by a small backtracking matcher (`Re`) over `List Char` whose
    semantics follows the JavaScript regexes used by the code (greedy
    quantifiers over character classes, ordered alternation, multiline `^`,
    word boundary `\b`, case-insensitive flag).
  * Issue objects carry their category and severity exactly as in the source;
    the purely descriptive `message` strings are modelled by the inductive
    `Msg`, one constructor per template literal of the source, keeping the
    interpolated data but not the surrounding prose.
  * Provider calls are network I/O; the router is modelled as a function of
    the outcomes (`Except String ProviderResult`) that the three provider
    calls would produce.  Wall-clock `timing` fields and token `usage`
    bookkeeping are not modelled; no claim is about them.
-/

namespace Proofmark

/-- Characters of a string literal. -/
def chars (s : String) : List Char := s.data

/-- JavaScript regex class and `String.prototype.trim` whitespace. -/
def isWS (c : Char) : Bool :=
  c = ' ' || c = '\t' || c = '\n' || c = '\r' || c = '\x0b' || c = '\x0c' ||
  c = '\u00a0' || c = '\ufeff'

/-- JavaScript `\w` word-character class. -/
def isWordChar (c : Char) : Bool := c.isAlpha || c.isDigit || c = '_'

/-- Drop leading whitespace. -/
def dropWS (l : List Char) : List Char := l.dropWhile isWS

/-- JavaScript `String.prototype.trim`. -/
def trimChars (l : List Char) : List Char :=
  ((l.dropWhile isWS).reverse.dropWhile isWS).reverse

/-- Strip a literal off the front of a string, case-sensitively. -/
def stripLit : List Char → List Char → Option (List Char)
  | [], s => some s
  | _ :: _, [] => none
  | p :: ps, c :: cs => if p = c then stripLit ps cs else none

/-- A JavaScript number: NaN, the two infinities, or a finite value
(modelled as an exact rational). -/
inductive JNum where
  | nan : JNum
  | posInf : JNum
  | negInf : JNum
  | num : ℚ → JNum
  deriving DecidableEq

/-- JavaScript `isNaN` on a number. -/
def JNum.isNaN : JNum → Bool
  | .nan => true
  | _ => false

/-- JavaScript addition, as used by `reduce((sum, r) => sum + r.probability, 0)`. -/
def jsAdd : JNum → JNum → JNum
  | .nan, _ => .nan
  | _, .nan => .nan
  | .posInf, .negInf => .nan
  | .negInf, .posInf => .nan
  | .posInf, _ => .posInf
  | _, .posInf => .posInf
  | .negInf, _ => .negInf
  | _, .negInf => .negInf
  | .num a, .num b => .num (a + b)

/-- JavaScript comparison `x < 0` (false on NaN). -/
def jsLtZero : JNum → Bool
  | .nan => false
  | .posInf => false
  | .negInf => true
  | .num q => q < 0

/-- JavaScript comparison `x > 1` (false on NaN). -/
def jsGtOne : JNum → Bool
  | .nan => false
  | .posInf => true
  | .negInf => false
  | .num q => 1 < q

/-- Numeric value of a run of decimal digits. -/
def digitsVal (l : List Char) : ℕ :=
  l.foldl (fun a c => a * 10 + (c.toNat - '0'.toNat)) 0

/-- Split a run of leading decimal digits off a string. -/
def takeDigits (l : List Char) : List Char × List Char :=
  (l.takeWhile Char.isDigit, l.dropWhile Char.isDigit)

/-- The optional exponent suffix accepted by `parseFloat` ( `e`/`E`, optional
sign, at least one digit); an incomplete exponent is ignored, matching the
longest-valid-literal-wins rule of `parseFloat`. -/
def parseExp (l : List Char) : Option (Bool × ℕ) :=
  match l with
  | 'e' :: r | 'E' :: r =>
    let (neg, r') := match r with
      | '-' :: t => (true, t)
      | '+' :: t => (false, t)
      | t => (false, t)
    let (ds, _) := takeDigits r'
    if ds = [] then none else some (neg, digitsVal ds)
  | _ => none

/-- JavaScript `parseFloat`: skip leading whitespace, optional sign, then the
longest prefix of the form `Infinity`, `digits[.digits]` or `.digits`, with an
optional exponent; anything else yields NaN.  Trailing garbage is ignored. -/
def parseFloatQ (l : List Char) : JNum :=
  let l1 := dropWS l
  let (neg, l2) := match l1 with
    | '-' :: t => (true, t)
    | '+' :: t => (false, t)
    | t => (false, t)
  match stripLit (chars "Infinity") l2 with
  | some _ => if neg then .negInf else .posInf
  | none =>
    let (ints, r1) := takeDigits l2
    let (fracs, r2) := match r1 with
      | '.' :: t => (some (takeDigits t).1, (takeDigits t).2)
      | _ => (none, r1)
    match ints, fracs with
    | [], none => .nan
    | [], some [] => .nan
    | _, _ =>
      let frac := match fracs with
        | some fs => (digitsVal fs : ℚ) / (10 : ℚ) ^ fs.length
        | none => 0
      let base : ℚ := (digitsVal ints : ℚ) + frac
      let withExp : ℚ := match parseExp r2 with
        | some (true, e) => base / (10 : ℚ) ^ e
        | some (false, e) => base * (10 : ℚ) ^ e
        | none => base
      .num (if neg then -withExp else withExp)

/-! ### A small backtracking regex matcher

Just enough of JavaScript regex semantics for the patterns appearing in
`quality-gate.mjs`: single-character classes, literals, ordered alternation,
greedy `*`/`+` over character classes, greedy `?`, the multiline `^` anchor
and the word boundary `\b`.  Matching is continuation-passing and returns the
first success in backtracking order, which is exactly the match the JavaScript
engine commits to. -/

/-- Character classes appearing in the embedded regexes. -/
inductive CharCls where
  | digit : CharCls
  | word : CharCls
  | space : CharCls
  | dot : CharCls
  | wordOrSpace : CharCls
  deriving DecidableEq

/-- Membership of a character in a class (`.` excludes line terminators, as in
JavaScript without the `s` flag). -/
def CharCls.test : CharCls → Char → Bool
  | .digit, c => c.isDigit
  | .word, c => isWordChar c
  | .space, c => isWS c
  | .dot, c => !(c = '\n' || c = '\r' || c = '\u2028' || c = '\u2029')
  | .wordOrSpace, c => isWordChar c || isWS c

/-- Syntax of the embedded regexes. -/
inductive Re where
  | eps : Re
  | str : List Char → Re
  | one : CharCls → Re
  | seq : Re → Re → Re
  | alt : Re → Re → Re
  | opt : Re → Re
  | star : CharCls → Re
  | plus : CharCls → Re
  | bol : Re
  | wb : Re
  deriving DecidableEq

/-- Sequence a list of regexes. -/
def Re.seqs (l : List Re) : Re := l.foldr Re.seq Re.eps

/-- Characters are compared case-insensitively under the `i` flag. -/
def chEq (ci : Bool) (a b : Char) : Bool :=
  if ci then a.toLower = b.toLower else a = b

/-- Consume a literal, tracking the last consumed character (needed for the
`\b` and multiline `^` assertions further right). -/
def stripLitCI (ci : Bool) : List Char → List Char → Option Char → Option (List Char × Option Char)
  | [], s, prev => some (s, prev)
  | _ :: _, [], _ => none
  | p :: ps, c :: cs, _ => if chEq ci p c then stripLitCI ci ps cs (some c) else none

/-- All states reachable by consuming a (possibly empty) run of class
characters, in order of increasing consumption. -/
def starRun (cl : CharCls) : List Char → Option Char → List (List Char × Option Char)
  | s, prev =>
    (s, prev) :: match s with
      | [] => []
      | c :: cs => if cl.test c then starRun cl cs (some c) else []

/-- First success of a continuation over a list of states. -/
def firstSome (k : List Char → Option Char → Option (List Char × Option Char)) :
    List (List Char × Option Char) → Option (List Char × Option Char)
  | [] => none
  | (s, p) :: rest =>
    match k s p with
    | some r => some r
    | none => firstSome k rest

/-- Is this position (just after `prev`) a multiline `^` position? -/
def atBOL (prev : Option Char) : Bool :=
  match prev with
  | none => true
  | some c => c = '\n' || c = '\r' || c = '\u2028' || c = '\u2029'

/-- Word boundary test between `prev` and the next character. -/
def atWB (prev : Option Char) (s : List Char) : Bool :=
  let pw := match prev with
    | some c => isWordChar c
    | none => false
  let nw := match s with
    | c :: _ => isWordChar c
    | [] => false
  pw != nw

/-- The matcher.  `k` is the continuation for the rest of the pattern; the
result is the remaining input and last consumed character after the overall
first (leftmost-biased, greedy) success. -/
def mMatch (ci : Bool) : Re → List Char → Option Char →
    (List Char → Option Char → Option (List Char × Option Char)) →
    Option (List Char × Option Char)
  | .eps, s, p, k => k s p
  | .str pat, s, p, k =>
    match stripLitCI ci pat s p with
    | some (s', p') => k s' p'
    | none => none
  | .one cl, s, _, k =>
    match s with
    | [] => none
    | c :: cs => if cl.test c then k cs (some c) else none
  | .seq a b, s, p, k => mMatch ci a s p (fun s' p' => mMatch ci b s' p' k)
  | .alt a b, s, p, k =>
    match mMatch ci a s p k with
    | some r => some r
    | none => mMatch ci b s p k
  | .opt a, s, p, k =>
    match mMatch ci a s p k with
    | some r => some r
    | none => k s p
  | .star cl, s, p, k => firstSome k (starRun cl s p).reverse
  | .plus cl, s, _, k =>
    match s with
    | [] => none
    | c :: cs => if cl.test c then firstSome k (starRun cl cs (some c)).reverse else none
  | .bol, s, p, k => if atBOL p then k s p else none
  | .wb, s, p, k => if atWB p s then k s p else none

/-- Match the regex at exactly this position; on success return the rest of
the input and the last consumed character. -/
def reMatchAt (ci : Bool) (r : Re) (s : List Char) (prev : Option Char) :
    Option (List Char × Option Char) :=
  mMatch ci r s prev (fun s' p' => some (s', p'))

/-- JavaScript `regex.test(text)` : does the pattern match starting at some
position?  Positions are tried left to right. -/
def reSearch (ci : Bool) (r : Re) : List Char → Option Char → Bool
  | s, prev =>
    (reMatchAt ci r s prev).isSome ||
      match s with
      | [] => false
      | c :: cs => reSearch ci r cs (some c)

/-- JavaScript `regex.test` from the start of the text. -/
def reTest (ci : Bool) (r : Re) (s : List Char) : Bool := reSearch ci r s none

/-- Count the matches of `text.match(/re/g...)`: successive leftmost
non-overlapping matches.  An (impossible for our patterns) empty match
advances one position, as the JavaScript engine does. -/
def reCountAux (ci : Bool) (r : Re) : ℕ → List Char → Option Char → ℕ
  | 0, _, _ => 0
  | fuel + 1, s, prev =>
    match reMatchAt ci r s prev with
    | some (rest, p') =>
      if rest.length < s.length then 1 + reCountAux ci r fuel rest p'
      else
        match s with
        | [] => 1
        | c :: cs => 1 + reCountAux ci r fuel cs (some c)
    | none =>
      match s with
      | [] => 0
      | c :: cs => reCountAux ci r fuel cs (some c)

/-- Number of global matches of the pattern in the text. -/
def reCount (ci : Bool) (r : Re) (s : List Char) : ℕ :=
  reCountAux ci r (s.length + 1) s none

/-! ### The regex patterns of `quality-gate.mjs` -/

/-- Format A of the rubric detector: `/^\d+\)\s+.+:\s+\d+/gm`. -/
def formatARe : Re :=
  Re.seqs [Re.bol, Re.plus .digit, Re.str (chars ")"), Re.plus .space,
    Re.plus .dot, Re.str (chars ":"), Re.plus .space, Re.plus .digit]

/-- Format B of the rubric detector: `/\b\w[\w\s]+:\s+\d+(?:\/10)?/gm`. -/
def formatBRe : Re :=
  Re.seqs [Re.wb, Re.one .word, Re.plus .wordOrSpace, Re.str (chars ":"),
    Re.plus .space, Re.plus .digit, Re.opt (Re.str (chars "/10"))]

/-- The aggregate total line: `/Total:\s*(\d+)\/100/`. -/
def totalRe : Re :=
  Re.seqs [Re.str (chars "Total:"), Re.star .space, Re.plus .digit, Re.str (chars "/100")]

/-- The tabular score detector: `/\|\s*\d+\s*\|/g`. -/
def tableRe : Re :=
  Re.seqs [Re.str (chars "|"), Re.star .space, Re.plus .digit, Re.star .space, Re.str (chars "|")]

/-- The pivot/alternative keyword detector:
`/(?:pivot|alternative|reframe|high.leverage|polar|how\s+it\s+works|integration)/i`. -/
def pivotRe : Re :=
  Re.alt (Re.str (chars "pivot"))
    (Re.alt (Re.str (chars "alternative"))
      (Re.alt (Re.str (chars "reframe"))
        (Re.alt (Re.seqs [Re.str (chars "high"), Re.one .dot, Re.str (chars "leverage")])
          (Re.alt (Re.str (chars "polar"))
            (Re.alt (Re.seqs [Re.str (chars "how"), Re.plus .space, Re.str (chars "it"),
                Re.plus .space, Re.str (chars "works")])
              (Re.str (chars "integration")))))))

/-- The six prompt-injection patterns, in source order (all `/i`). -/
def injectionPatterns : List Re :=
  [ Re.seqs [Re.wb, Re.str (chars "system"), Re.star .space, Re.str (chars ":"), Re.star .space],
    Re.seqs [Re.wb, Re.str (chars "assistant"), Re.star .space, Re.str (chars ":"), Re.star .space],
    Re.seqs [Re.wb, Re.str (chars "ignore"), Re.plus .space,
      Re.alt (Re.str (chars "previous")) (Re.alt (Re.str (chars "above")) (Re.str (chars "all"))),
      Re.plus .space, Re.str (chars "instructions")],
    Re.seqs [Re.wb, Re.str (chars "you"), Re.plus .space, Re.str (chars "are"), Re.plus .space,
      Re.alt (Re.str (chars "now")) (Re.str (chars "a")), Re.wb],
    Re.seqs [Re.wb, Re.str (chars "do"), Re.plus .space, Re.str (chars "not"), Re.plus .space,
      Re.str (chars "follow")],
    Re.seqs [Re.str (chars "<"), Re.opt (Re.str (chars "/")),
      Re.alt (Re.str (chars "system")) (Re.alt (Re.str (chars "instruction")) (Re.str (chars "prompt"))),
      Re.str (chars ">")] ]

/-- The structural-consistency probe `/^\d+\)\s+/m`. -/
def consistencyRe : Re :=
  Re.seqs [Re.bol, Re.plus .digit, Re.str (chars ")"), Re.plus .space]

/-! ### Data model -/

/-- Issue categories (the source's `category` strings; `struct` stands for the
source string "structure", which is a reserved word in Lean). -/
inductive Cat where
  | probability | rubric | struct | injection | formatting | xml | completeness | consistency
  deriving DecidableEq

/-- Issue severities. -/
inductive Sev where
  | info | warning | critical
  deriving DecidableEq

/-- The descriptive content of an issue message: one constructor per template
literal in the source, keeping the interpolated data. -/
inductive Msg where
  | probOutOfRange (i : ℕ)
  | rubricNonStandard (i count : ℕ)
  | rubricIncomplete (i found : ℕ)
  | missingTotalVariant (i : ℕ)
  | missingTotal (i : ℕ)
  | noPivotShort (i : ℕ)
  | injectionArtifact (i patIdx : ℕ)
  | tooShort (i len : ℕ)
  | tooLong (i len : ℕ)
  | mismatchedTags (openN closeN : ℕ)
  | noValidBlocks
  | fewResponses (n : ℕ)
  | probSumExceeds
  | inconsistentStructure
  deriving DecidableEq

/-- An issue `\x7b category, severity, message \x7d`. -/
structure Issue where
  category : Cat
  severity : Sev
  msg : Msg
  deriving DecidableEq

/-- A parsed response unit `\x7b text, probability \x7d`. -/
structure ResponseUnit where
  text : List Char
  probability : JNum
  deriving DecidableEq

/-! ### `parseResponses`

The source regex is
`/<response>\s*<text>([\s\S]*?)<\/text>\s*<probability>([\s\S]*?)<\/probability>\s*<\/response>/g`
executed repeatedly.  The lazy captures mean: the text capture ends at the
first position where `</text>\s*<probability>` matches, and the probability
capture at the first position where `</probability>\s*<\/response>` matches;
`\s*` before a literal beginning with `<` is deterministic.  The global scan
finds leftmost matches and resumes after each match. -/

/-- Find the shortest prefix (the lazy capture) whose suffix satisfies `stop`;
return the capture and the remainder delivered by `stop`. -/
def scanUntil (stop : List Char → Option (List Char)) : List Char → Option (List Char × List Char)
  | [] =>
    match stop [] with
    | some rest => some ([], rest)
    | none => none
  | c :: cs =>
    match stop (c :: cs) with
    | some rest => some ([], rest)
    | none =>
      match scanUntil stop cs with
      | some (cap, rest) => some (c :: cap, rest)
      | none => none

/-- End of the lazy text capture: `</text>\s*<probability>`. -/
def afterText (s : List Char) : Option (List Char) :=
  (stripLit (chars "</text>") s).bind (fun r => stripLit (chars "<probability>") (dropWS r))

/-- End of the lazy probability capture: `</probability>\s*</response>`. -/
def afterProb (s : List Char) : Option (List Char) :=
  (stripLit (chars "</probability>") s).bind (fun r => stripLit (chars "</response>") (dropWS r))

/-- Try the full block pattern at this position; on success return both
captures and the remaining input. -/
def matchAtResp (s : List Char) : Option (List Char × List Char × List Char) :=
  (stripLit (chars "<response>") s).bind fun r1 =>
  (stripLit (chars "<text>") (dropWS r1)).bind fun r2 =>
  (scanUntil afterText r2).bind fun tp =>
  (scanUntil afterProb tp.2).map fun pp => (tp.1, pp.1, pp.2)

/-- The repeated global scan; each iteration consumes at least one character,
so fuel `length + 1` always suffices. -/
def parseLoop : ℕ → List Char → List ResponseUnit
  | 0, _ => []
  | fuel + 1, s =>
    match matchAtResp s with
    | some (t, p, rest) => ⟨trimChars t, parseFloatQ (trimChars p)⟩ :: parseLoop fuel rest
    | none =>
      match s with
      | [] => []
      | _ :: cs => parseLoop fuel cs

/-- `parseResponses(outputText)` of `quality-gate.mjs`: the ordered list of
parsed response units (`text` trimmed, `probability` through `parseFloat`). -/
def parseResponses (s : String) : List ResponseUnit :=
  parseLoop (s.data.length + 1) s.data

/-! ### `scoreResponse` — the unit scorer -/

/-- `formatA.length` for a unit text. -/
def formatACount (t : List Char) : ℕ := reCount false formatARe t

/-- `Math.max(formatA.length, formatB.length, hasScoreTable.length)`. -/
def bestScoreCount (t : List Char) : ℕ :=
  max (max (formatACount t) (reCount false formatBRe t)) (reCount false tableRe t)

/-- Presence of a `Total: X/100` line. -/
def hasTotal (t : List Char) : Bool := reTest false totalRe t

/-- Index of the first matching injection pattern, if any (the source loop
breaks at the first match). -/
def injectionHit (t : List Char) : Option ℕ :=
  injectionPatterns.findIdx? (fun r => reTest true r t)

/-- Step 1, probability sanity: `isNaN(p) || p < 0 || p > 1` costs 0.3. -/
def step1 (r : ResponseUnit) (i : ℕ) : ℚ × List Issue :=
  if r.probability.isNaN || jsLtZero r.probability || jsGtOne r.probability then
    ((0.3 : ℚ), [⟨.probability, .critical, .probOutOfRange i⟩])
  else (0, [])

/-- Step 2, rubric completeness:  fewer than 5 score-like items and no total
costs 0.05 (info); a present but incomplete numbered format costs
`0.1 * (10 - formatA.length) / 10` (warning). -/
def step2 (t : List Char) (i : ℕ) : ℚ × List Issue :=
  if bestScoreCount t < 5 ∧ ¬hasTotal t then
    ((0.05 : ℚ), [⟨.rubric, .info, .rubricNonStandard i (bestScoreCount t)⟩])
  else if bestScoreCount t < 10 ∧ 0 < formatACount t then
    ((0.1 : ℚ) * ((10 : ℚ) - (formatACount t : ℚ)) / 10,
      [⟨.rubric, .warning, .rubricIncomplete i (formatACount t)⟩])
  else (0, [])

/-- Step 3, aggregate total presence: a missing total costs 0.03 when at
least 5 score-like items are present (format variant), otherwise 0.1. -/
def step3 (t : List Char) (i : ℕ) : ℚ × List Issue :=
  if ¬hasTotal t ∧ 5 ≤ bestScoreCount t then
    ((0.03 : ℚ), [⟨.rubric, .info, .missingTotalVariant i⟩])
  else if ¬hasTotal t ∧ bestScoreCount t < 5 then
    ((0.1 : ℚ), [⟨.rubric, .warning, .missingTotal i⟩])
  else (0, [])

/-- Step 4, pivot/alternative section or substantive content. -/
def step4 (t : List Char) (i : ℕ) : ℚ × List Issue :=
  if ¬reTest true pivotRe t ∧ t.length < 300 then
    ((0.1 : ℚ), [⟨.struct, .warning, .noPivotShort i⟩])
  else (0, [])

/-- Step 5, prompt-injection artifacts: 0.4 at the first matching pattern. -/
def step5 (t : List Char) (i : ℕ) : ℚ × List Issue :=
  match injectionHit t with
  | some j => ((0.4 : ℚ), [⟨.injection, .critical, .injectionArtifact i j⟩])
  | none => (0, [])

/-- Step 6, length sanity: 0.2 below 100 characters, 0.05 above 10000. -/
def step6 (t : List Char) (i : ℕ) : ℚ × List Issue :=
  let a := if t.length < 100 then ((0.2 : ℚ), [(⟨.formatting, .warning, .tooShort i t.length⟩ : Issue)]) else (0, [])
  let b := if 10000 < t.length then ((0.05 : ℚ), [(⟨.formatting, .warning, .tooLong i t.length⟩ : Issue)]) else (0, [])
  (a.1 + b.1, a.2 ++ b.2)

/-- The unit score before the final clamp (`score` right before
`Math.max(0, score)` in the source). -/
def scoreResponsePre (r : ResponseUnit) (i : ℕ) : ℚ :=
  1 - (step1 r i).1 - (step2 r.text i).1 - (step3 r.text i).1 - (step4 r.text i).1 -
    (step5 r.text i).1 - (step6 r.text i).1

/-- Comparison baseline for the injection claim: the same pre-clamp score
with the injection step (step 5) disabled. -/
def scoreResponsePreNoInjection (r : ResponseUnit) (i : ℕ) : ℚ :=
  1 - (step1 r i).1 - (step2 r.text i).1 - (step3 r.text i).1 - (step4 r.text i).1 -
    (step6 r.text i).1

/-- The issues of one scored unit, in source push order. -/
def scoreResponseIssues (r : ResponseUnit) (i : ℕ) : List Issue :=
  (step1 r i).2 ++ (step2 r.text i).2 ++ (step3 r.text i).2 ++ (step4 r.text i).2 ++
    (step5 r.text i).2 ++ (step6 r.text i).2

/-- A scored unit `\x7b score, issues \x7d`. -/
structure ScoredUnit where
  score : ℚ
  issues : List Issue
  deriving DecidableEq

/-- `scoreResponse(response, index)` of `quality-gate.mjs`. -/
def scoreResponse (r : ResponseUnit) (i : ℕ) : ScoredUnit :=
  ⟨max 0 (scoreResponsePre r i), scoreResponseIssues r i⟩

/-! ### `qualityGate` — the document-level gate -/

/-- Count non-overlapping occurrences of a literal, left to right
(JavaScript `(text.match(/lit/g) || []).length` for a literal pattern). -/
def countSubAux (pat : List Char) : ℕ → List Char → ℕ
  | 0, _ => 0
  | fuel + 1, s =>
    match stripLit pat s with
    | some rest => 1 + countSubAux pat fuel rest
    | none =>
      match s with
      | [] => 0
      | _ :: cs => countSubAux pat fuel cs

/-- Count of a literal in a string. -/
def countSub (pat : List Char) (s : List Char) : ℕ := countSubAux pat (s.length + 1) s

/-- Number of `<response>` open tags. -/
def openTags (s : String) : ℕ := countSub (chars "<response>") s.data

/-- Number of `</response>` close tags. -/
def closeTags (s : String) : ℕ := countSub (chars "</response>") s.data

/-- Check 1, XML well-formedness: mismatched tag counts cost 0.3 (critical). -/
def xmlStep (s : String) : ℚ × List Issue :=
  if openTags s ≠ closeTags s then
    ((0.3 : ℚ), [⟨.xml, .critical, .mismatchedTags (openTags s) (closeTags s)⟩])
  else (0, [])

/-- Check 3, expected unit count: fewer than 3 units cost 0.15 (warning). -/
def countStep (s : String) : ℚ × List Issue :=
  if (parseResponses s).length < 3 then
    ((0.15 : ℚ), [⟨.completeness, .warning, .fewResponses (parseResponses s).length⟩])
  else (0, [])

/-- The probability sum `responses.reduce((sum, r) => sum + r.probability, 0)`. -/
def probSum (rs : List ResponseUnit) : JNum :=
  rs.foldl (fun a r => jsAdd a r.probability) (JNum.num 0)

/-- Check 4, probability-sum ceiling: a sum `> 1.0` costs 0.2 (critical).
NaN propagates through the JavaScript sum and compares false. -/
def probStep (s : String) : ℚ × List Issue :=
  if jsGtOne (probSum (parseResponses s)) then
    ((0.2 : ℚ), [⟨.probability, .critical, .probSumExceeds⟩])
  else (0, [])

/-- `responses.map((r, i) => f(r, i))`. -/
def mapIdxFrom (f : ℕ → ResponseUnit → ScoredUnit) : ℕ → List ResponseUnit → List ScoredUnit
  | _, [] => []
  | i, r :: rs => f i r :: mapIdxFrom f (i + 1) rs

/-- Check 5, the individually scored units. -/
def gateScoredUnits (s : String) : List ScoredUnit :=
  mapIdxFrom (fun i r => scoreResponse r i) 0 (parseResponses s)

/-- `avgResponseScore` (division by zero cannot occur on the path where this
is used, since the zero-unit case short-circuits earlier). -/
def gateAvgUnit (s : String) : ℚ :=
  ((gateScoredUnits s).map (·.score)).sum / ((gateScoredUnits s).length : ℚ)

/-- Check 6, structural consistency: some but not all units starting with a
numbered line cost 0.1 (warning). -/
def consStep (s : String) : ℚ × List Issue :=
  let flags := (parseResponses s).map (fun r => reTest false consistencyRe r.text)
  if ¬flags.all id ∧ flags.any id then
    ((0.1 : ℚ), [⟨.consistency, .warning, .inconsistentStructure⟩])
  else (0, [])

/-- The document-level score `totalScore` after all four deductions. -/
def gateDocScore (s : String) : ℚ :=
  1 - (xmlStep s).1 - (countStep s).1 - (probStep s).1 - (consStep s).1

/-- Comparison baseline for the probability-sum claim: the document score with
the probability-sum check (check 4) disabled. -/
def gateDocScoreNoProb (s : String) : ℚ :=
  1 - (xmlStep s).1 - (countStep s).1 - (consStep s).1

/-- `Math.max(0, Math.min(1, x))`. -/
def clamp01 (x : ℚ) : ℚ := max 0 (min 1 x)

/-- The unrounded composite score
`Math.max(0, Math.min(1, totalScore * 0.4 + avgResponseScore * 0.6))`. -/
def gateComposite (s : String) : ℚ :=
  clamp01 (gateDocScore s * (0.4 : ℚ) + gateAvgUnit s * (0.6 : ℚ))

/-- Floor of a nonnegative rational (used only to model `toFixed`). -/
def qfloor (x : ℚ) : ℤ := Int.fdiv x.num x.den

/-- `parseFloat(x.toFixed(3))` for the nonnegative scores produced by the
gate: round to 3 decimal places, ties away from zero. -/
def roundTo3 (x : ℚ) : ℚ := (qfloor (x * 1000 + (0.5 : ℚ)) : ℚ) / 1000

/-- The full issue list of a non-short-circuited gate run, in source push
order: tag check, count check, probability-sum check, per-unit issues,
consistency check. -/
def gateIssues (s : String) : List Issue :=
  (xmlStep s).2 ++ (countStep s).2 ++ (probStep s).2 ++
    ((gateScoredUnits s).map (·.issues)).flatten ++ (consStep s).2

/-- The fixed gate threshold `QUALITY_THRESHOLD = 0.70`. -/
def QUALITY_THRESHOLD : ℚ := 0.70

/-- A quality report `\x7b score, issues, responses, passesGate, threshold \x7d`. -/
structure QualityReport where
  score : ℚ
  issues : List Issue
  responses : List ResponseUnit
  passesGate : Bool
  threshold : ℚ
  deriving DecidableEq

/-- `qualityGate(outputText)` of `quality-gate.mjs`.  With zero parsed units
it short-circuits (score 0, no gate pass, one extra critical issue); otherwise
the reported score is the composite rounded to 3 decimals while `passesGate`
compares the unrounded composite against the fixed threshold. -/
def qualityGate (s : String) : QualityReport :=
  if parseResponses s = [] then
    ⟨0, (xmlStep s).2 ++ [⟨.xml, .critical, .noValidBlocks⟩], [], false, QUALITY_THRESHOLD⟩
  else
    ⟨roundTo3 (gateComposite s), gateIssues s, parseResponses s,
      decide (QUALITY_THRESHOLD ≤ gateComposite s), QUALITY_THRESHOLD⟩

/-! ### `prompt-schema.mjs` — experiments, metrics, winner selection

`promptConfig` and `outputSchema` are provider/validator objects that the
claims never touch; they are omitted from the variant model.  A metric
sample's `timestamp` (`Date.now()`) is wall-clock time and is likewise
omitted. -/

/-- A prompt variant (weight as given at definition time, normalized by
`defineExperiment`). -/
structure Variant where
  id : String
  provider : String
  weight : ℚ
  qualityThreshold : Option ℚ
  deriving DecidableEq

/-- One recorded metric sample. -/
structure MetricSample where
  qualityScore : ℚ
  escalated : Bool
  schemaValid : Bool
  latencyMs : ℚ
  tokenCount : ℚ
  deriving DecidableEq

/-- An experiment; `metrics` models the insertion-ordered
`Map(variantId → MetricSample[])`. -/
structure Experiment where
  name : String
  variants : List Variant
  metrics : List (String × List MetricSample)
  deriving DecidableEq

/-- JavaScript `v.weight || 1`: a falsy weight (0, or an absent field modelled
as 0) falls back to 1. -/
def orOne (w : ℚ) : ℚ := if w = 0 then 1 else w

/-- `defineExperiment(name, variants)`: reject an empty variant list, then
normalize each weight by the total `Σ (v.weight || 1)`. -/
def defineExperiment (name : String) (vs : List Variant) : Except String Experiment :=
  if vs = [] then .error "Experiment must have at least one variant"
  else
    Except.ok
      ⟨name,
        vs.map (fun v => ⟨v.id, v.provider, orOne v.weight / (vs.map (fun w => orOne w.weight)).sum,
          v.qualityThreshold⟩),
        []⟩

/-- `recordMetric(experiment, variantId, metric)`: append to the variant's
sample list, creating it on first use. -/
def recordMetric (e : Experiment) (vid : String) (m : MetricSample) : Experiment :=
  if (e.metrics.find? (fun p => p.1 = vid)).isSome then
    ⟨e.name, e.variants, e.metrics.map (fun p => if p.1 = vid then (p.1, p.2 ++ [m]) else p)⟩
  else ⟨e.name, e.variants, e.metrics ++ [(vid, [m])]⟩

/-- The samples recorded for a variant (`experiment.metrics.get(id) || []`). -/
def lookupMetrics (e : Experiment) (vid : String) : List MetricSample :=
  match e.metrics.find? (fun p => p.1 = vid) with
  | some p => p.2
  | none => []

/-- The `avg` helper: mean of a list, 0 when empty. -/
def avgQ (l : List ℚ) : ℚ := if l = [] then 0 else l.sum / (l.length : ℚ)

/-- The per-variant aggregate statistics consumed by `pickWinner` (the
source's `getExperimentStats` additionally reports min/max/percentiles and
schema-pass rates, which no claim touches).  For a variant with no samples
the source emits only `\x7b samples: 0, weight \x7d`; the remaining fields are
modelled as 0 and are never read when `minSamples ≥ 1`. -/
structure VStats where
  samples : ℕ
  weight : ℚ
  qualityMean : ℚ
  escalationRate : ℚ
  latencyMean : ℚ
  tokensMean : ℚ
  deriving DecidableEq

/-- Aggregate statistics of one variant. -/
def statsFor (e : Experiment) (v : Variant) : VStats :=
  let ms := lookupMetrics e v.id
  if ms = [] then ⟨0, v.weight, 0, 0, 0, 0⟩
  else
    ⟨ms.length, v.weight, avgQ (ms.map (·.qualityScore)),
      ((ms.filter (·.escalated)).length : ℚ) / (ms.length : ℚ),
      avgQ (ms.map (·.latencyMs)), avgQ (ms.map (·.tokenCount))⟩

/-- `Object.entries(stats.variants)` in variant order. -/
def statsPairs (e : Experiment) : List (String × VStats) :=
  e.variants.map (fun v => (v.id, statsFor e v))

/-- The variants eligible for winner selection: at least `minSamples`
recorded samples. -/
def eligibleOf (e : Experiment) (minSamples : ℕ) : List (String × VStats) :=
  (statsPairs e).filter (fun p => minSamples ≤ p.2.samples)

/-- The three optimization modes of `pickWinner`. -/
inductive OptMode where
  | quality | cost | latency
  deriving DecidableEq

/-- The per-mode score of `pickWinner`'s loop (`||` on a falsy mean models
the `s.tokens.mean || 1` / `s.latency.mean || 1` guards). -/
def modeScore : OptMode → VStats → ℚ
  | .quality, s => s.qualityMean * (1 - s.escalationRate * (0.5 : ℚ))
  | .cost, s => s.qualityMean / (if s.tokensMean = 0 then 1 else s.tokensMean)
  | .latency, s => s.qualityMean / (if s.latencyMean = 0 then 1 else s.latencyMean) * 1000

/-- The winner-selection fold: keep the entry with the strictly greatest
score, earliest first (`bestScore` starts at `-Infinity`, so the first
eligible entry always replaces the initial state). -/
def pickLoop (mode : OptMode) : List (String × VStats) → Option (String × ℚ) → Option (String × ℚ)
  | [], best => best
  | p :: rest, best =>
    match best with
    | none => pickLoop mode rest (some (p.1, modeScore mode p.2))
    | some (bid, bsc) =>
      if bsc < modeScore mode p.2 then pickLoop mode rest (some (p.1, modeScore mode p.2))
      else pickLoop mode rest (some (bid, bsc))

/-- The head of `arr.sort((a, b) => b.mean - a.mean)` for a stable sort:
the first element attaining the maximal quality mean. -/
def firstMaxByQMean : List (String × VStats) → Option (String × VStats)
  | [] => none
  | p :: rest =>
    match firstMaxByQMean rest with
    | none => some p
    | some q => if q.2.qualityMean ≤ p.2.qualityMean then some p else some q

/-- `stats.variants[bestId]` (defaults are never reached: the looked-up id
always comes from the eligible list). -/
def statsLookup (e : Experiment) (bid : String) : VStats :=
  match (statsPairs e).find? (fun p => p.1 = bid) with
  | some p => p.2
  | none => ⟨0, 0, 0, 0, 0, 0⟩

/-- The result of `pickWinner` (the echoed `stats` object is omitted). -/
structure WinnerResult where
  winner : Option Variant
  confidence : String
  deriving DecidableEq

/-- `pickWinner(experiment, options)` of `prompt-schema.mjs`. -/
def pickWinner (e : Experiment) (minSamples : ℕ) (mode : OptMode) : WinnerResult :=
  if (eligibleOf e minSamples).length < 2 then ⟨none, "insufficient_data"⟩
  else
    match pickLoop mode (eligibleOf e minSamples) none with
    | none => ⟨none, "insufficient_data"⟩
    | some (bid, _) =>
      let ws := statsLookup e bid
      let gap : ℚ :=
        match firstMaxByQMean ((eligibleOf e minSamples).filter (fun p => ¬p.1 = bid)) with
        | some r => ws.qualityMean - r.2.qualityMean
        | none => 0
      ⟨e.variants.find? (fun v => v.id = bid),
        if 30 ≤ ws.samples ∧ (0.1 : ℚ) < gap then "high"
        else if 10 ≤ ws.samples ∧ (0.05 : ℚ) < gap then "medium"
        else "low"⟩

/-- `pickWinner` with its option defaults (`minSamples = 5`,
`optimizeFor = "quality"`). -/
def pickWinnerDefault (e : Experiment) : WinnerResult := pickWinner e 5 .quality

/-! ### `router.mjs` — the escalation router

The three provider calls (`callMiniMax`, `callOpenAI`, `callAnthropic`) are
network I/O; `evaluate` is modelled as a function of the outcome each call
would produce (`Except String ProviderResult`, an `error` standing for a
thrown provider error).  Latency/usage bookkeeping and `console.warn` logging
are not modelled. -/

/-- The normalized reply of one provider call (fields beyond the output text
and model id play no role in any claim). -/
structure ProviderResult where
  outputText : String
  model : String
  deriving DecidableEq

/-- The `escalationReason` field: the OpenAI-tier return stores the literal
`["MiniMax failed quality gate"]`, the Anthropic-tier return stores the
failing gate's issue list. -/
inductive EscReason where
  | minimaxFailed : EscReason
  | gateIssues : List Issue → EscReason
  deriving DecidableEq

/-- The caller-visible result of `evaluate`. -/
structure EvalResult where
  provider : String
  model : String
  quality : ℚ
  escalated : Bool
  escalationReason : Option EscReason
  responses : List ResponseUnit
  issues : List Issue
  deriving DecidableEq

/-- The router configuration: which optional keys are configured, the
`qualityThreshold` override (default 0.70) and `allowEscalation`
(default true). -/
structure RouterConfig where
  minimaxConfigured : Bool
  anthropicConfigured : Bool
  qualityThreshold : ℚ
  allowEscalation : Bool
  deriving DecidableEq

/-- `callAnthropic` throws when no Anthropic key is configured, otherwise
performs the provider call. -/
def callAnthropicM (cfg : RouterConfig) (an : Except String ProviderResult) :
    Except String ProviderResult :=
  if cfg.anthropicConfigured then an
  else .error "Anthropic API key required for escalation but not configured"

/-- Tier 3 of `evaluate` (Anthropic Opus, strongest): the result is returned
whatever its own gate outcome, with `escalated: true` and the previous tier's
gate issues as the escalation reason.  A thrown error propagates. -/
def tier3 (cfg : RouterConfig) (reason : List Issue) (an : Except String ProviderResult) :
    Except String EvalResult :=
  match callAnthropicM cfg an with
  | .error e => .error e
  | .ok fb =>
    .ok ⟨"anthropic", fb.model, (qualityGate fb.outputText).score, true,
      some (.gateIssues reason), (qualityGate fb.outputText).responses,
      (qualityGate fb.outputText).issues⟩

/-- Tier 2 of `evaluate` (OpenAI, mid-tier).  `mmTried` records whether the
MiniMax tier ran first (`escalated: !!minimaxKey`).  The call is *not*
wrapped in try/catch: a thrown error propagates to the caller. -/
def tier2 (cfg : RouterConfig) (mmTried : Bool) (oa an : Except String ProviderResult) :
    Except String EvalResult :=
  match oa with
  | .error e => .error e
  | .ok pr =>
    if (qualityGate pr.outputText).passesGate ∨ cfg.allowEscalation = false then
      .ok ⟨"openai", pr.model, (qualityGate pr.outputText).score, mmTried,
        if mmTried then some .minimaxFailed else none,
        (qualityGate pr.outputText).responses, (qualityGate pr.outputText).issues⟩
    else tier3 cfg (qualityGate pr.outputText).issues an

/-- `evaluate(idea)` of `router.mjs` as a function of the three provider
outcomes.  Only the MiniMax tier is wrapped in try/catch: a MiniMax error is
logged and falls through to the OpenAI tier. -/
def evaluate (cfg : RouterConfig) (mm oa an : Except String ProviderResult) :
    Except String EvalResult :=
  if cfg.minimaxConfigured then
    match mm with
    | .error _ => tier2 cfg true oa an
    | .ok pr =>
      if (qualityGate pr.outputText).passesGate ∨ cfg.allowEscalation = false then
        .ok ⟨"minimax", pr.model, (qualityGate pr.outputText).score, false, none,
          (qualityGate pr.outputText).responses, (qualityGate pr.outputText).issues⟩
      else tier2 cfg true oa an
  else tier2 cfg false oa an

/-- The caller-visible result of `evaluateWithExperiment` (the `schemaValid`
flag of the source comes from an external Standard Schema validator object
and is not modelled; metric recording is factored out). -/
structure ExpResult where
  provider : String
  model : String
  quality : ℚ
  escalated : Bool
  escalationReason : Option EscReason
  responses : List ResponseUnit
  issues : List Issue
  variantId : String
  deriving DecidableEq

/-- `variant.qualityThreshold || qualityThreshold` (falsy 0 falls back). -/
def expThreshold (cfg : RouterConfig) (v : Variant) : ℚ :=
  match v.qualityThreshold with
  | some t => if t = 0 then cfg.qualityThreshold else t
  | none => cfg.qualityThreshold

/-- Steps 2 and 4 of `evaluateWithExperiment`, after the selected variant's
provider produced `primary`: the escalation decision compares the *reported*
(rounded) gate score `gate.score` against the variant/caller threshold; on
failure the single fallback tier is Anthropic, returned unconditionally. -/
def evaluateWithExperiment (cfg : RouterConfig) (v : Variant) (primary : ProviderResult)
    (an : Except String ProviderResult) : Except String ExpResult :=
  if expThreshold cfg v ≤ (qualityGate primary.outputText).score ∨ cfg.allowEscalation = false then
    .ok ⟨v.provider, primary.model, (qualityGate primary.outputText).score, false, none,
      (qualityGate primary.outputText).responses, (qualityGate primary.outputText).issues, v.id⟩
  else
    match callAnthropicM cfg an with
    | .error e => .error e
    | .ok fb =>
      .ok ⟨"anthropic", fb.model, (qualityGate fb.outputText).score, true,
        some (.gateIssues (qualityGate primary.outputText).issues),
        (qualityGate fb.outputText).responses, (qualityGate fb.outputText).issues, v.id⟩

/-! ### Concrete inputs used by witnesses and counterexamples -/

set_option maxRecDepth 1000000

/-- One well-formed response block. -/
def rblock (t p : String) : String :=
  "<response><text>" ++ t ++ "</text><probability>" ++ p ++ "</probability></response>"

/-- A unit text with four numbered rubric lines, a total line and a pivot
keyword: unit score `1 - 0.3 - 0.06 - 0.2 = 0.44` when its probability is
non-numeric. -/
def uFine : String := "1) A: 5\n2) B: 5\n3) C: 5\n4) D: 5\nTotal: 40/100\nintegration"

/-- Twelve blocks whose unit scores average `599/1200`, so the unrounded
composite is exactly `0.6995`: seven units scoring 0.65, four scoring 0.25,
one scoring 0.44.  The reported score rounds to exactly the 0.70 threshold
while the gate fails. -/
def sNine : String :=
  String.join (List.replicate 7 (rblock "1) integration" "0.01")) ++
  String.join (List.replicate 4 (rblock "1) x" "abc")) ++
  rblock uFine "abc"

/-- A unit text with a complete ten-line rubric, total and pivot keyword:
unit score 1.0. -/
def gText : String :=
  "1) A: 5\n2) B: 5\n3) C: 5\n4) D: 5\n5) E: 5\n6) F: 5\n7) G: 5\n8) H: 5\n9) I: 5\n10) J: 5\nTotal: 50/100\nintegration"

/-- Three perfect blocks: composite 1.0, the gate passes. -/
def sGood : String := String.join (List.replicate 3 (rblock gText "0.05"))

/-- Three weak blocks (unit score 0.25 each): composite `0.55`, between the
0.5 caller override of `cfgHalf` and the fixed 0.70 threshold. -/
def sMid : String := String.join (List.replicate 3 (rblock "1) x" "abc"))

/-- Three blocks with numeric probabilities summing to 1.5. -/
def sSum : String := String.join (List.replicate 3 (rblock "1) x" "0.5"))

/-- Two numeric probabilities summing to 1.8 plus one non-numeric one:
the summed probability is NaN. -/
def sNaN : String := rblock "1) x" "0.9" ++ rblock "1) x" "0.9" ++ rblock "1) x" "zzz"

/-- A fully configured router with the default threshold. -/
def cfgFull : RouterConfig := ⟨true, true, 0.70, true⟩

/-- A fully configured router whose caller lowered the threshold to 0.5. -/
def cfgHalf : RouterConfig := ⟨true, true, 0.5, true⟩

/-- A variant with no threshold override. -/
def vPlain : Variant := ⟨"v-plain", "minimax", 1, none⟩

deriving instance DecidableEq for Except

/-! ### The claims -/

/-- Claim C9: `qualityGate` computes `passesGate` from the unrounded
composite but reports the score rounded to 3 decimals, so on the concrete
input `sNine` the report's score equals the 0.70 threshold exactly while
`passesGate` is false; and `evaluateWithExperiment` compares the rounded
score against the variant threshold, so on the same raw text the experiment
path keeps the primary result (`escalated = false`) while plain `evaluate`,
deciding by `passesGate`, escalates past that tier (`escalated = true`). -/
theorem claim9_rounded_score_disagrees_with_gate :
    (qualityGate sNine).score = (qualityGate sNine).threshold ∧
    (qualityGate sNine).threshold = 7 / 10 ∧
    (qualityGate sNine).passesGate = false ∧
    (evaluateWithExperiment cfgFull vPlain ⟨sNine, "mm-01"⟩ (.ok ⟨sGood, "opus"⟩)).map
      (fun r => r.escalated) = .ok false ∧
    (evaluate cfgFull (.ok ⟨sNine, "mm-01"⟩) (.ok ⟨sGood, "oai"⟩) (.ok ⟨sGood, "opus"⟩)).map
      (fun r => r.escalated) = .ok true := by
  with_unfolding_all decide

/-- Claim C1 counterexample: with MiniMax configured, escalation allowed and
a healthy Anthropic terminal tier, an error thrown by the mid-tier OpenAI
call propagates to the caller — `evaluate` returns that very error instead of
escalating to Anthropic as the claim requires. -/
theorem claim1_counterexample :
    cfgFull.minimaxConfigured = true ∧ cfgFull.anthropicConfigured = true ∧
    cfgFull.allowEscalation = true ∧
    evaluate cfgFull (.error "minimax: network failure") (.error "openai: auth failure")
      (.ok ⟨sGood, "opus"⟩) = .error "openai: auth failure" := by
  with_unfolding_all decide

/-- Claim C1 (amended): only the cheapest (MiniMax) tier's error is treated
as an implicit gate failure — `evaluate` falls through to the OpenAI tier.
An error raised at the OpenAI tier propagates to the caller even when a more
expensive Anthropic tier is configured, and an error at the Anthropic tier
propagates as well. -/
theorem claim1_amended :
    (∀ (cfg : RouterConfig) (e : String) (oa an : Except String ProviderResult),
      cfg.minimaxConfigured = true → evaluate cfg (.error e) oa an = tier2 cfg true oa an) ∧
    (∀ (cfg : RouterConfig) (b : Bool) (e : String) (an : Except String ProviderResult),
      tier2 cfg b (.error e) an = .error e) ∧
    (∀ (cfg : RouterConfig) (reason : List Issue) (e : String),
      cfg.anthropicConfigured = true → tier3 cfg reason (.error e) = .error e) := by
  refine ⟨?_, ?_, ?_⟩
  · intro cfg e oa an h
    simp [evaluate, h]
  · intro cfg b e an
    rfl
  · intro cfg reason e h
    simp [tier3, callAnthropicM, h]

/-- Witness for the amended claim C1 at concrete inputs. -/
theorem claim1_witness :
    cfgFull.minimaxConfigured = true ∧ cfgFull.anthropicConfigured = true ∧
    evaluate cfgFull (.error "mm down") (.ok ⟨"x", "m2"⟩) (.ok ⟨"x", "m3"⟩) =
      tier2 cfgFull true (.ok ⟨"x", "m2"⟩) (.ok ⟨"x", "m3"⟩) ∧
    tier2 cfgFull true (.error "oa down") (.ok ⟨"x", "m3"⟩) = .error "oa down" ∧
    tier3 cfgFull [] (.error "an down") = .error "an down" :=
  ⟨rfl, rfl,
    claim1_amended.1 cfgFull "mm down" (.ok ⟨"x", "m2"⟩) (.ok ⟨"x", "m3"⟩) rfl,
    claim1_amended.2.1 cfgFull true "oa down" (.ok ⟨"x", "m3"⟩),
    claim1_amended.2.2 cfgFull [] "an down" rfl⟩

/-- Claim C4: every `evaluate` invocation that reaches the terminal
(Anthropic) tier returns that tier's result to the caller unconditionally —
the conclusion does not depend on the terminal gate's outcome on `r` — with
`escalated = true`. -/
theorem claim4_terminal_tier_unconditional
    (cfg : RouterConfig) (mm oa an : Except String ProviderResult)
    (r2 r : ProviderResult)
    (hesc : cfg.allowEscalation = true)
    (han : cfg.anthropicConfigured = true)
    (hoa : oa = .ok r2)
    (hfail : (qualityGate r2.outputText).passesGate = false)
    (htier1 : cfg.minimaxConfigured = false ∨ (∃ e, mm = .error e) ∨
      ∃ r1, mm = .ok r1 ∧ (qualityGate r1.outputText).passesGate = false)
    (har : an = .ok r) :
    evaluate cfg mm oa an =
      .ok ⟨"anthropic", r.model, (qualityGate r.outputText).score, true,
        some (.gateIssues (qualityGate r2.outputText).issues),
        (qualityGate r.outputText).responses, (qualityGate r.outputText).issues⟩ := by
  subst hoa har
  have htier2 : ∀ b : Bool, tier2 cfg b (.ok r2) (.ok r) =
      .ok ⟨"anthropic", r.model, (qualityGate r.outputText).score, true,
        some (.gateIssues (qualityGate r2.outputText).issues),
        (qualityGate r.outputText).responses, (qualityGate r.outputText).issues⟩ := by
    intro b
    simp [tier2, hfail, hesc, tier3, callAnthropicM, han]
  rcases htier1 with h | ⟨e, hm⟩ | ⟨r1, hm, hf1⟩
  · simp [evaluate, h, htier2]
  · subst hm
    by_cases hmc : cfg.minimaxConfigured = true <;> simp [evaluate, hmc, htier2]
  · subst hm
    by_cases hmc : cfg.minimaxConfigured = true <;>
      simp [evaluate, hmc, hf1, hesc, htier2]

/-- Witness for claim C4: the Anthropic tier is reached after a MiniMax error
and an OpenAI gate failure; its reply "x" itself fails the gate (score 0),
yet it is returned with `escalated = true`. -/
theorem claim4_witness :
    (qualityGate "x").passesGate = false ∧
    evaluate cfgFull (.error "mm down") (.ok ⟨"x", "oai-m"⟩) (.ok ⟨"x", "opus-m"⟩) =
      .ok ⟨"anthropic", "opus-m", (qualityGate "x").score, true,
        some (.gateIssues (qualityGate "x").issues),
        (qualityGate "x").responses, (qualityGate "x").issues⟩ :=
  ⟨by with_unfolding_all decide,
    claim4_terminal_tier_unconditional cfgFull (.error "mm down") (.ok ⟨"x", "oai-m"⟩)
      (.ok ⟨"x", "opus-m"⟩) ⟨"x", "oai-m"⟩ ⟨"x", "opus-m"⟩ rfl rfl rfl
      (by with_unfolding_all decide) (Or.inr (Or.inl ⟨"mm down", rfl⟩)) rfl⟩

/-- Claim C2 counterexample: on the input `"<response>"` zero units parse,
but the short-circuited report carries two critical issues (the tag-mismatch
issue recorded before parsing plus the no-valid-blocks issue), not the single
critical issue the claim states. -/
theorem claim2_counterexample :
    parseResponses "<response>" = [] ∧
    ((qualityGate "<response>").issues.filter (fun is => is.severity = Sev.critical)).length = 2 := by
  with_unfolding_all decide

/-- Claim C2 (amended): `qualityGate` is total, and whenever zero response
units are parsed it short-circuits with score 0, a failed gate, an empty
responses list and a single critical issue appended by the short-circuit —
preceded only by the tag-mismatch critical issue when the open/close counts
differ — skipping all further checks. -/
theorem claim2_amended (s : String) (h : parseResponses s = []) :
    (qualityGate s).score = 0 ∧ (qualityGate s).passesGate = false ∧
    (qualityGate s).responses = [] ∧
    (qualityGate s).issues = (xmlStep s).2 ++ [(⟨.xml, .critical, .noValidBlocks⟩ : Issue)] ∧
    (qualityGate s).threshold = QUALITY_THRESHOLD := by
  simp [qualityGate, h]

/-- Witness for the amended claim C2 at the empty string. -/
theorem claim2_witness :
    parseResponses "" = [] ∧
    (qualityGate "").score = 0 ∧ (qualityGate "").passesGate = false ∧
    (qualityGate "").responses = [] ∧
    (qualityGate "").issues = (xmlStep "").2 ++ [(⟨.xml, .critical, .noValidBlocks⟩ : Issue)] ∧
    (qualityGate "").threshold = QUALITY_THRESHOLD :=
  ⟨by with_unfolding_all decide, claim2_amended "" (by with_unfolding_all decide)⟩

/-- Claim C3 counterexample: the caller override `qualityThreshold = 0.5` of
`cfgHalf` does not reach `passesGate` — on `sMid` the composite `0.55`
clears the caller threshold, yet the gate fails (its threshold is the fixed
0.70) and `evaluate` escalates past the tier. -/
theorem claim3_counterexample :
    cfgHalf.qualityThreshold = 1 / 2 ∧
    gateComposite sMid = 11 / 20 ∧
    cfgHalf.qualityThreshold ≤ gateComposite sMid ∧
    (qualityGate sMid).passesGate = false ∧
    (evaluate cfgHalf (.ok ⟨sMid, "mm-02"⟩) (.ok ⟨sGood, "oai"⟩) (.ok ⟨sGood, "opus"⟩)).map
      (fun r => r.escalated) = .ok true := by
  with_unfolding_all decide

/-- Claim C3 (amended): for inputs with at least one parsed unit the gate's
composite equals `clamp01(doc*0.4 + avg*0.6)` with `avg` the mean of the
per-unit scores; `passesGate` compares the unrounded composite against the
*fixed* 0.70 constant (the reported score being the rounded composite), and
plain `evaluate` ignores the caller's `qualityThreshold` entirely — the
caller/variant override only affects `evaluateWithExperiment`'s escalation
comparison. -/
theorem claim3_amended :
    (∀ s : String, ¬parseResponses s = [] →
      (qualityGate s).passesGate = decide (QUALITY_THRESHOLD ≤ gateComposite s) ∧
      (qualityGate s).score = roundTo3 (gateComposite s) ∧
      gateComposite s = clamp01 (gateDocScore s * (0.4 : ℚ) + gateAvgUnit s * (0.6 : ℚ)) ∧
      gateAvgUnit s = ((gateScoredUnits s).map (·.score)).sum / ((gateScoredUnits s).length : ℚ) ∧
      (qualityGate s).threshold = QUALITY_THRESHOLD) ∧
    (∀ (m a esc : Bool) (q q' : ℚ) (mm oa an : Except String ProviderResult),
      evaluate ⟨m, a, q, esc⟩ mm oa an = evaluate ⟨m, a, q', esc⟩ mm oa an) := by
  constructor
  · intro s h
    refine ⟨?_, ?_, rfl, rfl, ?_⟩ <;> simp [qualityGate, h]
  · intro m a esc q q' mm oa an
    have h3 : ∀ (reason : List Issue) (an' : Except String ProviderResult),
        tier3 ⟨m, a, q, esc⟩ reason an' = tier3 ⟨m, a, q', esc⟩ reason an' := by
      intro reason an'
      simp [tier3, callAnthropicM]
    have h2 : ∀ (b : Bool) (oa' an' : Except String ProviderResult),
        tier2 ⟨m, a, q, esc⟩ b oa' an' = tier2 ⟨m, a, q', esc⟩ b oa' an' := by
      intro b oa' an'
      cases oa' with
      | error e => rfl
      | ok pr =>
        dsimp [tier2]
        split
        · rfl
        · exact h3 _ _
    cases mm with
    | error e => simp [evaluate, h2]
    | ok pr =>
      dsimp [evaluate]
      split
      · split
        · rfl
        · exact h2 _ _ _
      · exact h2 _ _ _

/-- Witness for the amended claim C3 at `sGood`. -/
theorem claim3_witness :
    ¬parseResponses sGood = [] ∧
    (qualityGate sGood).passesGate = decide (QUALITY_THRESHOLD ≤ gateComposite sGood) ∧
    (qualityGate sGood).score = roundTo3 (gateComposite sGood) :=
  ⟨by with_unfolding_all decide,
    (claim3_amended.1 sGood (by with_unfolding_all decide)).1,
    (claim3_amended.1 sGood (by with_unfolding_all decide)).2.1⟩

/-- The probability-sanity step emits no issue or exactly its own issue. -/
lemma step1_issues_cases (r : ResponseUnit) (i : ℕ) :
    (step1 r i).2 = [] ∨
    (step1 r i).2 = [(⟨.probability, .critical, .probOutOfRange i⟩ : Issue)] := by
  unfold step1
  split <;> simp

/-- The rubric-completeness step emits no issue or exactly one of its two. -/
lemma step2_issues_cases (t : List Char) (i : ℕ) :
    (step2 t i).2 = [] ∨
    (step2 t i).2 = [(⟨.rubric, .info, .rubricNonStandard i (bestScoreCount t)⟩ : Issue)] ∨
    (step2 t i).2 = [(⟨.rubric, .warning, .rubricIncomplete i (formatACount t)⟩ : Issue)] := by
  unfold step2
  split_ifs <;> simp

/-- The total-presence step emits no issue or exactly one of its two. -/
lemma step3_issues_cases (t : List Char) (i : ℕ) :
    (step3 t i).2 = [] ∨
    (step3 t i).2 = [(⟨.rubric, .info, .missingTotalVariant i⟩ : Issue)] ∨
    (step3 t i).2 = [(⟨.rubric, .warning, .missingTotal i⟩ : Issue)] := by
  unfold step3
  split_ifs <;> simp

/-- The substantive-content step emits no issue or exactly its own issue. -/
lemma step4_issues_cases (t : List Char) (i : ℕ) :
    (step4 t i).2 = [] ∨ (step4 t i).2 = [(⟨.struct, .warning, .noPivotShort i⟩ : Issue)] := by
  unfold step4
  split_ifs <;> simp

/-- The length-sanity step emits a sublist of its two issues. -/
lemma step6_issues_cases (t : List Char) (i : ℕ) :
    (step6 t i).2 = [] ∨
    (step6 t i).2 = [(⟨.formatting, .warning, .tooShort i t.length⟩ : Issue)] ∨
    (step6 t i).2 = [(⟨.formatting, .warning, .tooLong i t.length⟩ : Issue)] ∨
    (step6 t i).2 = [(⟨.formatting, .warning, .tooShort i t.length⟩ : Issue),
      (⟨.formatting, .warning, .tooLong i t.length⟩ : Issue)] := by
  simp only [step6]
  split_ifs <;> simp

/-- Claim C5: a unit text matching some injection pattern gets exactly one
critical `injection` issue — the loop stops at the first matching pattern —
and its pre-clamp score is exactly 0.4 below the score with the injection
step disabled (hence reduced by at least 0.4 before the clamp). -/
theorem claim5_injection_penalty (r : ResponseUnit) (i : ℕ)
    (h : injectionHit r.text ≠ none) :
    ((scoreResponse r i).issues.filter (fun is => is.category = Cat.injection)).length = 1 ∧
    scoreResponsePre r i = scoreResponsePreNoInjection r i - (0.4 : ℚ) := by
  obtain ⟨j, hj⟩ := Option.ne_none_iff_exists'.mp h
  have h5 : step5 r.text i =
      ((0.4 : ℚ), [(⟨.injection, .critical, .injectionArtifact i j⟩ : Issue)]) := by
    simp [step5, hj]
  constructor
  · have f1 : (step1 r i).2.filter (fun is => is.category = Cat.injection) = [] := by
      rcases step1_issues_cases r i with hc | hc <;> simp [hc, List.filter]
    have f2 : (step2 r.text i).2.filter (fun is => is.category = Cat.injection) = [] := by
      rcases step2_issues_cases r.text i with hc | hc | hc <;> simp [hc, List.filter]
    have f3 : (step3 r.text i).2.filter (fun is => is.category = Cat.injection) = [] := by
      rcases step3_issues_cases r.text i with hc | hc | hc <;> simp [hc, List.filter]
    have f4 : (step4 r.text i).2.filter (fun is => is.category = Cat.injection) = [] := by
      rcases step4_issues_cases r.text i with hc | hc <;> simp [hc, List.filter]
    have f6 : (step6 r.text i).2.filter (fun is => is.category = Cat.injection) = [] := by
      rcases step6_issues_cases r.text i with hc | hc | hc | hc <;> simp [hc, List.filter]
    simp [scoreResponse, scoreResponseIssues, List.filter_append, f1, f2, f3, f4, f6, h5,
      List.filter]
  · simp only [scoreResponsePre, scoreResponsePreNoInjection, h5]
    ring

/-- Witness for claim C5 on the text "ignore previous instructions". -/
theorem claim5_witness :
    injectionHit (chars "ignore previous instructions") ≠ none ∧
    ((scoreResponse ⟨chars "ignore previous instructions", JNum.num (1/20)⟩ 0).issues.filter
      (fun is => is.category = Cat.injection)).length = 1 ∧
    scoreResponsePre ⟨chars "ignore previous instructions", JNum.num (1/20)⟩ 0 =
      scoreResponsePreNoInjection ⟨chars "ignore previous instructions", JNum.num (1/20)⟩ 0 -
        (0.4 : ℚ) :=
  ⟨by with_unfolding_all decide,
    (claim5_injection_penalty ⟨chars "ignore previous instructions", JNum.num (1/20)⟩ 0
      (by with_unfolding_all decide)).1,
    (claim5_injection_penalty ⟨chars "ignore previous instructions", JNum.num (1/20)⟩ 0
      (by with_unfolding_all decide)).2⟩

/-- Claim C6: whenever the parsed units' probabilities are numeric and sum to
strictly more than 1.0, the report carries the critical `probability`
sum-issue and the document-level score is exactly 0.2 lower than with the
sum check disabled. -/
theorem claim6_probability_sum_penalty (s : String) (t : ℚ)
    (hsum : probSum (parseResponses s) = JNum.num t) (hgt : 1 < t) :
    (⟨.probability, .critical, .probSumExceeds⟩ : Issue) ∈ (qualityGate s).issues ∧
    gateDocScore s = gateDocScoreNoProb s - (0.2 : ℚ) := by
  have hps : probStep s = ((0.2 : ℚ), [(⟨.probability, .critical, .probSumExceeds⟩ : Issue)]) := by
    simp [probStep, hsum, jsGtOne, hgt]
  have hne : ¬parseResponses s = [] := by
    intro h0
    rw [h0] at hsum
    simp only [probSum, List.foldl_nil, JNum.num.injEq] at hsum
    rw [← hsum] at hgt
    exact absurd hgt (by norm_num)
  constructor
  · have hgi : (qualityGate s).issues = gateIssues s := by simp [qualityGate, hne]
    rw [hgi]
    simp [gateIssues, hps]
  · simp only [gateDocScore, gateDocScoreNoProb, hps]
    ring

/-- Witness for claim C6 on three units with probabilities 0.5 each. -/
theorem claim6_witness :
    probSum (parseResponses sSum) = JNum.num (3/2) ∧ (1 : ℚ) < 3/2 ∧
    (⟨.probability, .critical, .probSumExceeds⟩ : Issue) ∈ (qualityGate sSum).issues ∧
    gateDocScore sSum = gateDocScoreNoProb sSum - (0.2 : ℚ) :=
  ⟨by with_unfolding_all decide, by norm_num,
    (claim6_probability_sum_penalty sSum (3/2) (by with_unfolding_all decide) (by norm_num)).1,
    (claim6_probability_sum_penalty sSum (3/2) (by with_unfolding_all decide) (by norm_num)).2⟩

/-- The tag-balance check emits no issue or exactly its own issue. -/
lemma xmlStep_issues_cases (s : String) :
    (xmlStep s).2 = [] ∨
    (xmlStep s).2 = [(⟨.xml, .critical, .mismatchedTags (openTags s) (closeTags s)⟩ : Issue)] := by
  unfold xmlStep
  split_ifs <;> simp

/-- The unit-count check emits no issue or exactly its own issue. -/
lemma countStep_issues_cases (s : String) :
    (countStep s).2 = [] ∨
    (countStep s).2 = [(⟨.completeness, .warning, .fewResponses (parseResponses s).length⟩ : Issue)] := by
  unfold countStep
  split_ifs <;> simp

/-- The consistency check emits no issue or exactly its own issue. -/
lemma consStep_issues_cases (s : String) :
    (consStep s).2 = [] ∨
    (consStep s).2 = [(⟨.consistency, .warning, .inconsistentStructure⟩ : Issue)] := by
  simp only [consStep]
  split_ifs <;> simp

/-- NaN absorbs on the right of the JavaScript sum. -/
lemma jsAdd_nan_right (a : JNum) : jsAdd a JNum.nan = JNum.nan := by
  cases a <;> rfl

/-- A NaN accumulator is absorbing for the probability fold. -/
lemma foldl_jsAdd_nan (rs : List ResponseUnit) :
    rs.foldl (fun a r => jsAdd a r.probability) JNum.nan = JNum.nan := by
  induction rs with
  | nil => rfl
  | cons r rs ih =>
    have hl : jsAdd JNum.nan r.probability = JNum.nan := by cases r.probability <;> rfl
    simpa [hl] using ih

/-- A single NaN probability turns the whole fold into NaN. -/
lemma foldl_jsAdd_of_mem_nan (rs : List ResponseUnit) :
    ∀ acc : JNum, (∃ u ∈ rs, u.probability = JNum.nan) →
      rs.foldl (fun a r => jsAdd a r.probability) acc = JNum.nan := by
  induction rs with
  | nil =>
    rintro acc ⟨u, hu, _⟩
    cases hu
  | cons r rs ih =>
    rintro acc ⟨u, hu, hn⟩
    simp only [List.foldl_cons]
    rcases List.mem_cons.mp hu with rfl | hmem
    · rw [hn, jsAdd_nan_right]
      exact foldl_jsAdd_nan rs
    · exact ih (jsAdd acc r.probability) ⟨u, hmem, hn⟩

/-- `probSum` is NaN whenever some unit's probability is NaN. -/
lemma probSum_nan_of_mem (rs : List ResponseUnit) (u : ResponseUnit)
    (hu : u ∈ rs) (hn : u.probability = JNum.nan) : probSum rs = JNum.nan :=
  foldl_jsAdd_of_mem_nan rs (JNum.num 0) ⟨u, hu, hn⟩

/-- Every message a scored unit can emit is a per-unit message; in
particular it is never the document-level sum message. -/
lemma scoreResponse_msg_ne_sum (r : ResponseUnit) (j : ℕ) :
    ∀ is ∈ scoreResponseIssues r j, is.msg ≠ Msg.probSumExceeds := by
  intro is his
  simp only [scoreResponseIssues, List.mem_append] at his
  rcases his with ((((h | h) | h) | h) | h) | h
  · rcases step1_issues_cases r j with hc | hc <;> rw [hc] at h <;> simp_all
  · rcases step2_issues_cases r.text j with hc | hc | hc <;> rw [hc] at h <;> simp_all
  · rcases step3_issues_cases r.text j with hc | hc | hc <;> rw [hc] at h <;> simp_all
  · rcases step4_issues_cases r.text j with hc | hc <;> rw [hc] at h <;> simp_all
  · unfold step5 at h
    split at h <;> simp_all
  · rcases step6_issues_cases r.text j with hc | hc | hc | hc <;> rw [hc] at h <;>
      fin_cases h <;> simp

/-- Every element of `mapIdxFrom f k l` is an `f j r`. -/
lemma mem_mapIdxFrom (f : ℕ → ResponseUnit → ScoredUnit) :
    ∀ (l : List ResponseUnit) (k : ℕ) (x : ScoredUnit),
      x ∈ mapIdxFrom f k l → ∃ j r, x = f j r := by
  intro l
  induction l with
  | nil =>
    intro k x hx
    cases hx
  | cons r rs ih =>
    intro k x hx
    rcases List.mem_cons.mp hx with rfl | hmem
    · exact ⟨k, r, rfl⟩
    · exact ih (k + 1) x hmem

/-- `mapIdxFrom` preserves indexed access, shifting by the start index. -/
lemma mapIdxFrom_get? (f : ℕ → ResponseUnit → ScoredUnit) :
    ∀ (l : List ResponseUnit) (k i : ℕ) (u : ResponseUnit),
      l.get? i = some u → (mapIdxFrom f k l).get? i = some (f (k + i) u) := by
  intro l
  induction l with
  | nil =>
    intro k i u hu
    simp at hu
  | cons r rs ih =>
    intro k i u hu
    cases i with
    | zero =>
      simp only [List.get?] at hu
      cases hu
      rfl
    | succ i =>
      simp only [List.get?] at hu ⊢
      have := ih (k + 1) i u hu
      simpa [Nat.add_assoc, Nat.add_comm 1 i] using this

/-- Claim C10: a single non-numeric (NaN) probability disables the
document-level probability-sum check entirely — no sum penalty and no
`probSumExceeds` issue, whatever the other units sum to — while the NaN unit
itself is flagged by its per-unit probability-sanity issue. -/
theorem claim10_nan_disables_sum_check (s : String) (i : ℕ) (u : ResponseUnit)
    (hu : (parseResponses s).get? i = some u) (hnan : u.probability = JNum.nan) :
    (probStep s).1 = 0 ∧
    (∀ is ∈ (qualityGate s).issues, is.msg ≠ Msg.probSumExceeds) ∧
    (⟨.probability, .critical, .probOutOfRange i⟩ : Issue) ∈ (qualityGate s).issues := by
  have hmem : u ∈ parseResponses s := List.get?_mem hu
  have hsum : probSum (parseResponses s) = JNum.nan := probSum_nan_of_mem _ u hmem hnan
  have hps : probStep s = (0, []) := by simp [probStep, hsum, jsGtOne]
  have hne : ¬parseResponses s = [] := by
    intro h0
    rw [h0] at hu
    simp at hu
  have hgi : (qualityGate s).issues = gateIssues s := by simp [qualityGate, hne]
  refine ⟨by simp [hps], ?_, ?_⟩
  · intro is his
    rw [hgi] at his
    simp only [gateIssues, hps, List.mem_append] at his
    rcases his with (((h | h) | h) | h) | h
    · rcases xmlStep_issues_cases s with hc | hc <;> rw [hc] at h <;> simp_all
    · rcases countStep_issues_cases s with hc | hc <;> rw [hc] at h <;> simp_all
    · cases h
    · rcases List.mem_flatten.mp h with ⟨l, hl, hil⟩
      rcases List.mem_map.mp hl with ⟨su, hsu, rfl⟩
      rcases mem_mapIdxFrom _ _ _ _ hsu with ⟨j, r, rfl⟩
      exact scoreResponse_msg_ne_sum r j is hil
    · rcases consStep_issues_cases s with hc | hc <;> rw [hc] at h <;> simp_all
  · have hstep1 : step1 u i = ((0.3 : ℚ), [(⟨.probability, .critical, .probOutOfRange i⟩ : Issue)]) := by
      simp [step1, hnan, JNum.isNaN]
    have hin : (⟨.probability, .critical, .probOutOfRange i⟩ : Issue) ∈
        (scoreResponse u i).issues := by
      simp [scoreResponse, scoreResponseIssues, hstep1]
    have hgu : (gateScoredUnits s).get? i = some (scoreResponse u i) := by
      have := mapIdxFrom_get? (fun j r => scoreResponse r j) (parseResponses s) 0 i u hu
      simpa [gateScoredUnits] using this
    have hsu : scoreResponse u i ∈ gateScoredUnits s := List.get?_mem hgu
    rw [hgi]
    simp only [gateIssues, List.mem_append]
    refine Or.inl (Or.inr ?_)
    exact List.mem_flatten.mpr ⟨(scoreResponse u i).issues, List.mem_map_of_mem _ hsu, hin⟩

/-- Witness for claim C10: two numeric probabilities of 0.9 plus one NaN —
the numeric part alone sums to 1.8, yet no sum issue is emitted. -/
theorem claim10_witness :
    (parseResponses sNaN).get? 2 = some ⟨chars "1) x", JNum.nan⟩ ∧
    (probStep sNaN).1 = 0 ∧
    (∀ is ∈ (qualityGate sNaN).issues, is.msg ≠ Msg.probSumExceeds) ∧
    (⟨.probability, .critical, .probOutOfRange 2⟩ : Issue) ∈ (qualityGate sNaN).issues :=
  ⟨by with_unfolding_all decide,
    (claim10_nan_disables_sum_check sNaN 2 ⟨chars "1) x", JNum.nan⟩
      (by with_unfolding_all decide) rfl).1,
    (claim10_nan_disables_sum_check sNaN 2 ⟨chars "1) x", JNum.nan⟩
      (by with_unfolding_all decide) rfl).2.1,
    (claim10_nan_disables_sum_check sNaN 2 ⟨chars "1) x", JNum.nan⟩
      (by with_unfolding_all decide) rfl).2.2⟩

/-- Distribute a common divisor out of a list sum. -/
lemma sum_map_div (vs : List Variant) (f : Variant → ℚ) (c : ℚ) :
    (vs.map (fun v => f v / c)).sum = (vs.map f).sum / c := by
  induction vs with
  | nil => simp
  | cons v vs ih => simp [ih, add_div]

/-- Claim C7: for every non-empty variant list with positive weights,
`defineExperiment` succeeds and the normalized weights sum to 1 within the
1e-6 tolerance (here: exactly 1, since the model computes exactly). -/
theorem claim7_weight_normalization (name : String) (vs : List Variant)
    (hne : vs ≠ []) (hpos : ∀ v ∈ vs, 0 < v.weight) :
    ∃ e, defineExperiment name vs = Except.ok e ∧
      |((e.variants.map (fun v => v.weight)).sum) - 1| ≤ 1 / 1000000 := by
  have horone : (vs.map (fun w => orOne w.weight)) = vs.map (fun w => w.weight) :=
    List.map_congr_left fun v hv => by simp [orOne, (hpos v hv).ne']
  have htpos : 0 < (vs.map (fun w => orOne w.weight)).sum := by
    rw [horone]
    apply List.sum_pos
    · intro x hx
      rcases List.mem_map.mp hx with ⟨v, hv, rfl⟩
      exact hpos v hv
    · simpa using hne
  refine ⟨⟨name, vs.map (fun v => ⟨v.id, v.provider,
      orOne v.weight / (vs.map (fun w => orOne w.weight)).sum, v.qualityThreshold⟩), []⟩, ?_, ?_⟩
  · simp [defineExperiment, hne]
  · have hmap : ((vs.map (fun v => (⟨v.id, v.provider,
        orOne v.weight / (vs.map (fun w => orOne w.weight)).sum, v.qualityThreshold⟩ : Variant))).map
        (fun v => v.weight)) =
        vs.map (fun v => orOne v.weight / (vs.map (fun w => orOne w.weight)).sum) := by
      simp [List.map_map, Function.comp]
    rw [hmap, sum_map_div vs (fun v => orOne v.weight) ((vs.map (fun w => orOne w.weight)).sum),
      div_self (ne_of_gt htpos)]
    norm_num

/-- Two variants with weights 7 and 3. -/
def vsSeven : List Variant := [⟨"a", "openai", 7, none⟩, ⟨"b", "anthropic", 3, none⟩]

/-- Witness for claim C7 on two variants with weights 7 and 3. -/
theorem claim7_witness :
    vsSeven ≠ [] ∧ (∀ v ∈ vsSeven, 0 < v.weight) ∧
    ∃ e, defineExperiment "exp" vsSeven = Except.ok e ∧
      |((e.variants.map (fun v => v.weight)).sum) - 1| ≤ 1 / 1000000 :=
  ⟨by with_unfolding_all decide, by with_unfolding_all decide,
    claim7_weight_normalization "exp" vsSeven (by with_unfolding_all decide)
      (by with_unfolding_all decide)⟩

/-- Specification of the winner-selection fold: the result bounds every
scanned score, is attained by some scanned entry (or is the initial state),
and dominates the initial state. -/
lemma pickLoop_spec (mode : OptMode) :
    ∀ (l : List (String × VStats)) (acc : Option (String × ℚ)),
      (match pickLoop mode l acc with
       | some bp =>
           (∀ p ∈ l, modeScore mode p.2 ≤ bp.2) ∧
           ((∃ p ∈ l, p.1 = bp.1 ∧ modeScore mode p.2 = bp.2) ∨ acc = some bp) ∧
           (∀ b0 s0, acc = some (b0, s0) → s0 ≤ bp.2)
       | none => l = [] ∧ acc = none) := by
  intro l
  induction l with
  | nil =>
    intro acc
    cases acc with
    | none => exact ⟨rfl, rfl⟩
    | some bp =>
      refine ⟨?_, Or.inr rfl, ?_⟩
      · intro p hp
        cases hp
      · rintro b0 s0 h0
        cases h0
        exact le_refl _
  | cons p rest ih =>
    intro acc
    cases acc with
    | none =>
      simp only [pickLoop]
      have h := ih (some (p.1, modeScore mode p.2))
      cases hres : pickLoop mode rest (some (p.1, modeScore mode p.2)) with
      | none =>
        rw [hres] at h
        exact absurd h.2 (by simp)
      | some bp =>
        rw [hres] at h
        obtain ⟨h1, h2, h3⟩ := h
        refine ⟨?_, ?_, ?_⟩
        · intro q hq
          rcases List.mem_cons.mp hq with rfl | hq'
          · exact h3 _ _ rfl
          · exact h1 q hq'
        · rcases h2 with ⟨q, hq, hqq⟩ | heq
          · exact Or.inl ⟨q, List.mem_cons_of_mem _ hq, hqq⟩
          · cases heq
            exact Or.inl ⟨p, List.mem_cons_self _ _, rfl, rfl⟩
        · rintro b0 s0 h0
          cases h0
    | some bp0 =>
      obtain ⟨bid0, bsc0⟩ := bp0
      simp only [pickLoop]
      by_cases hlt : bsc0 < modeScore mode p.2
      · rw [if_pos hlt]
        have h := ih (some (p.1, modeScore mode p.2))
        cases hres : pickLoop mode rest (some (p.1, modeScore mode p.2)) with
        | none =>
          rw [hres] at h
          exact absurd h.2 (by simp)
        | some bp =>
          rw [hres] at h
          obtain ⟨h1, h2, h3⟩ := h
          have hple : modeScore mode p.2 ≤ bp.2 := h3 _ _ rfl
          refine ⟨?_, ?_, ?_⟩
          · intro q hq
            rcases List.mem_cons.mp hq with rfl | hq'
            · exact hple
            · exact h1 q hq'
          · rcases h2 with ⟨q, hq, hqq⟩ | heq
            · exact Or.inl ⟨q, List.mem_cons_of_mem _ hq, hqq⟩
            · cases heq
              exact Or.inl ⟨p, List.mem_cons_self _ _, rfl, rfl⟩
          · rintro b0 s0 h0
            cases h0
            exact le_trans (le_of_lt hlt) hple
      · rw [if_neg hlt]
        have h := ih (some (bid0, bsc0))
        cases hres : pickLoop mode rest (some (bid0, bsc0)) with
        | none =>
          rw [hres] at h
          exact absurd h.2 (by simp)
        | some bp =>
          rw [hres] at h
          obtain ⟨h1, h2, h3⟩ := h
          have hble : bsc0 ≤ bp.2 := h3 _ _ rfl
          refine ⟨?_, ?_, ?_⟩
          · intro q hq
            rcases List.mem_cons.mp hq with rfl | hq'
            · exact le_trans (not_lt.mp hlt) hble
            · exact h1 q hq'
          · rcases h2 with ⟨q, hq, hqq⟩ | heq
            · exact Or.inl ⟨q, List.mem_cons_of_mem _ hq, hqq⟩
            · exact Or.inr heq
          · rintro b0 s0 h0
            cases h0
            exact hble

/-- Specification of the runner-up choice: the chosen entry is in the list
and attains the maximal quality mean. -/
lemma firstMaxByQMean_spec :
    ∀ l : List (String × VStats),
      (match firstMaxByQMean l with
       | some r => r ∈ l ∧ ∀ p ∈ l, p.2.qualityMean ≤ r.2.qualityMean
       | none => l = []) := by
  intro l
  induction l with
  | nil => exact rfl
  | cons p rest ih =>
    cases hres : firstMaxByQMean rest with
    | none =>
      have hrest : rest = [] := by
        rw [hres] at ih
        exact ih
      subst hrest
      refine ⟨List.mem_singleton.mpr rfl, ?_⟩
      intro q hq
      rcases List.mem_singleton.mp hq with rfl
      exact le_refl _
    | some q =>
      rw [hres] at ih
      obtain ⟨hqmem, hqmax⟩ := ih
      simp only [firstMaxByQMean, hres]
      by_cases hle : q.2.qualityMean ≤ p.2.qualityMean
      · rw [if_pos hle]
        refine ⟨List.mem_cons_self _ _, ?_⟩
        intro x hx
        rcases List.mem_cons.mp hx with rfl | hx'
        · exact le_refl _
        · exact le_trans (hqmax x hx') hle
      · rw [if_neg hle]
        refine ⟨List.mem_cons_of_mem _ hqmem, ?_⟩
        intro x hx
        rcases List.mem_cons.mp hx with rfl | hx'
        · exact le_of_lt (not_le.mp hle)
        · exact hqmax x hx'

/-- The keys of the eligible list are the variant ids, without duplicates
when the variant ids are. -/
lemma eligible_keys_nodup (e : Experiment) (minS : ℕ)
    (hnd : (e.variants.map (fun v => v.id)).Nodup) :
    ((eligibleOf e minS).map (fun p => p.1)).Nodup := by
  have h1 : (statsPairs e).map (fun p => p.1) = e.variants.map (fun v => v.id) := by
    simp [statsPairs, List.map_map, Function.comp]
  have h2 : List.Sublist (eligibleOf e minS) (statsPairs e) := List.filter_sublist _
  exact List.Nodup.sublist (List.Sublist.map _ h2) (h1 ▸ hnd)

/-- Claim C8: `pickWinner` considers only variants with at least
`minSamples` (default 5) samples; fewer than two eligible variants yield no
winner with confidence `insufficient_data`; otherwise, in quality mode, the
winner attains the maximal `qualityMean * (1 - escalationRate * 0.5)` over
the eligible variants, and the confidence is `high` exactly when the winner
has at least 30 samples and leads the best other eligible quality mean by
more than 0.10, `medium` when at least 10 samples and a gap above 0.05, and
`low` otherwise.  (`minSamples ≥ 1` keeps sample-less variants — whose stats
object the source leaves without quality fields — out of the eligible set,
and distinct variant ids match the source's id-keyed stats object.) -/
theorem claim8_pick_winner (e : Experiment) (minS : ℕ)
    (hmin : 1 ≤ minS) (hnd : (e.variants.map (fun v => v.id)).Nodup) :
    pickWinnerDefault e = pickWinner e 5 .quality ∧
    (∀ p ∈ eligibleOf e minS, minS ≤ p.2.samples) ∧
    (∀ p ∈ eligibleOf e minS, 1 ≤ p.2.samples) ∧
    ((eligibleOf e minS).length < 2 →
      pickWinner e minS .quality = ⟨none, "insufficient_data"⟩) ∧
    (2 ≤ (eligibleOf e minS).length →
      ∃ bid bsc, pickLoop .quality (eligibleOf e minS) none = some (bid, bsc) ∧
        (pickWinner e minS .quality).winner = e.variants.find? (fun v => v.id = bid) ∧
        (∃ p ∈ eligibleOf e minS, p.1 = bid ∧ modeScore .quality p.2 = bsc) ∧
        (∀ p ∈ eligibleOf e minS, modeScore .quality p.2 ≤ bsc) ∧
        ∃ r ∈ (eligibleOf e minS).filter (fun p => ¬p.1 = bid),
          (∀ p ∈ (eligibleOf e minS).filter (fun p => ¬p.1 = bid),
            p.2.qualityMean ≤ r.2.qualityMean) ∧
          (pickWinner e minS .quality).confidence =
            (if 30 ≤ (statsLookup e bid).samples ∧
                (0.1 : ℚ) < (statsLookup e bid).qualityMean - r.2.qualityMean then "high"
             else if 10 ≤ (statsLookup e bid).samples ∧
                (0.05 : ℚ) < (statsLookup e bid).qualityMean - r.2.qualityMean then "medium"
             else "low")) := by
  refine ⟨rfl, ?_, ?_, ?_, ?_⟩
  · intro p hp
    simpa using (List.mem_filter.mp hp).2
  · intro p hp
    exact le_trans hmin (by simpa using (List.mem_filter.mp hp).2)
  · intro hlt
    simp [pickWinner, hlt]
  · intro hge
    have hspec := pickLoop_spec .quality (eligibleOf e minS) none
    cases hres : pickLoop .quality (eligibleOf e minS) none with
    | none =>
      rw [hres] at hspec
      rw [hspec.1] at hge
      simp at hge
    | some bp =>
      obtain ⟨bid, bsc⟩ := bp
      rw [hres] at hspec
      obtain ⟨hmax, hatt, -⟩ := hspec
      have hatt' : ∃ p ∈ eligibleOf e minS, p.1 = bid ∧ modeScore .quality p.2 = bsc := by
        rcases hatt with h | h
        · exact h
        · cases h
      obtain ⟨a, b, rest, hlist⟩ : ∃ a b rest, eligibleOf e minS = a :: b :: rest := by
        cases hl : eligibleOf e minS with
        | nil =>
          rw [hl] at hge
          simp at hge
        | cons a tl =>
          cases htl : tl with
          | nil =>
            rw [hl, htl] at hge
            simp at hge
          | cons b rest =>
            subst htl
            exact ⟨a, b, rest, rfl⟩
      have hkeys := eligible_keys_nodup e minS hnd
      have hab : a.1 ≠ b.1 := by
        rw [hlist] at hkeys
        simp only [List.map_cons, List.nodup_cons, List.mem_cons, List.mem_map] at hkeys
        exact fun hh => hkeys.1 (Or.inl hh)
      have hone : a.1 ≠ bid ∨ b.1 ≠ bid := by
        by_contra hcon
        push_neg at hcon
        exact hab (hcon.1.trans hcon.2.symm)
      have hoth_ne : (eligibleOf e minS).filter (fun p => ¬p.1 = bid) ≠ [] := by
        rcases hone with hno | hno
        · intro hemp
          have hmem : a ∈ (eligibleOf e minS).filter (fun p => ¬p.1 = bid) :=
            List.mem_filter.mpr ⟨by rw [hlist]; exact List.mem_cons_self _ _, by simpa using hno⟩
          rw [hemp] at hmem
          cases hmem
        · intro hemp
          have hmem : b ∈ (eligibleOf e minS).filter (fun p => ¬p.1 = bid) :=
            List.mem_filter.mpr
              ⟨by rw [hlist]; exact List.mem_cons_of_mem _ (List.mem_cons_self _ _),
                by simpa using hno⟩
          rw [hemp] at hmem
          cases hmem
      have hrspec := firstMaxByQMean_spec ((eligibleOf e minS).filter (fun p => ¬p.1 = bid))
      cases hrr : firstMaxByQMean ((eligibleOf e minS).filter (fun p => ¬p.1 = bid)) with
      | none =>
        rw [hrr] at hrspec
        exact absurd hrspec hoth_ne
      | some rU =>
        rw [hrr] at hrspec
        obtain ⟨hrmem, hrmax⟩ := hrspec
        have hnotlt : ¬(eligibleOf e minS).length < 2 := not_lt.mpr hge
        refine ⟨bid, bsc, rfl, ?_, hatt', hmax, rU, hrmem, hrmax, ?_⟩
        · simp only [pickWinner, if_neg hnotlt, hres, hrr]
        · simp only [pickWinner, if_neg hnotlt, hres, hrr]

/-- A steady sample of quality 0.9. -/
def sampleA : MetricSample := ⟨9/10, false, true, 100, 50⟩

/-- A steady sample of quality 0.7. -/
def sampleB : MetricSample := ⟨7/10, false, true, 100, 50⟩

/-- An experiment with 30 samples of variant "a" (quality 0.9) and 10 of
variant "b" (quality 0.7). -/
def expEight : Experiment :=
  ⟨"exp8", [⟨"a", "openai", 1/2, none⟩, ⟨"b", "anthropic", 1/2, none⟩],
    [("a", List.replicate 30 sampleA), ("b", List.replicate 10 sampleB)]⟩

/-- Witness for claim C8: with the default minimum of 5 samples both
variants are eligible, and the high-confidence winner is "a". -/
theorem claim8_witness :
    (1 ≤ 5 ∧ (expEight.variants.map (fun v => v.id)).Nodup) ∧
    (∀ p ∈ eligibleOf expEight 5, 5 ≤ p.2.samples) ∧
    (pickWinner expEight 5 .quality).winner =
      some (⟨"a", "openai", 1/2, none⟩ : Variant) ∧
    (pickWinner expEight 5 .quality).confidence = "high" :=
  ⟨⟨by norm_num, by with_unfolding_all decide⟩,
    (claim8_pick_winner expEight 5 (by norm_num) (by with_unfolding_all decide)).2.1,
    by with_unfolding_all decide,
    by with_unfolding_all decide⟩

end Proofmark
